import Mathlib

/-
Verification of the Turing machine simulator in `turing.py`.

The development shallowly embeds the Python module: the `Tape` class becomes
the `Tape` structure together with `Tape.initSparse`, `Tape.getitem`,
`Tape.setitem` and `Tape.iterList`; the `TuringMachine` class becomes the
`TMState` structure together with `TuringMachine.init` (constructor plus
`_validate_table`) and `TuringMachine.next` (the `__next__` method).
Python dictionaries are modelled as insertion-ordered association lists,
Python exceptions as explicit `Except`/`Option` results, and the Python
values that can flow through the symbol positions (strings and `None`) as
the inductive type `Sym`.
-/

namespace TMSim

/-- The module-level SYMBOLS alphabet: every ASCII letter, every digit, the
underscore, and the empty string (printing the empty string deletes the
cell contents). -/
def SYMBOLS : List String :=
  (("abcdefghijklmnopqrstuvwxyzABCDEFGHIJKLMNOPQRSTUVWXYZ0123456789_").toList.map
    (fun c => String.singleton c)) ++ [""]

/-- A Python value appearing in a symbol position: either `None` or a
string. -/
inductive Sym where
  | pynone : Sym
  | pystr : String → Sym
deriving DecidableEq, Repr

/-- Python `str` applied to a symbol value. -/
def pyStr : Sym → String
  | Sym.pynone => "None"
  | Sym.pystr s => s

/-- Python truthiness of a symbol value: `None` and the empty string are
falsy, every other string is truthy. -/
def pyTruthy : Sym → Bool
  | Sym.pynone => false
  | Sym.pystr s => decide (s ≠ "")

/-- The Python exceptions the module can raise (a `KeyError` during lookup
is turned into `StopIteration` by `__next__` and is modelled directly as
the stop outcome). -/
inductive PyErr where
  | valueError (msg : String)
  | attributeError (msg : String)
deriving DecidableEq, Repr

/-- First-match lookup in an association list, the model of `dict`
indexing / `dict.get`. -/
def dictLookup {α β : Type} [DecidableEq α] : List (α × β) → α → Option β
  | [], _ => none
  | (k, v) :: rest, key => if k = key then some v else dictLookup rest key

/-- Removal of a key, the model of `del d[key]` (a no-op when the key is
absent, matching the guarded `if key in self._tape: del ...`). -/
def dictRemove {α β : Type} [DecidableEq α] : List (α × β) → α → List (α × β)
  | [], _ => []
  | (k, v) :: rest, key =>
    if k = key then dictRemove rest key else (k, v) :: dictRemove rest key

/-- Insertion-ordered overwrite, the model of `d[key] = val`: an existing
binding is replaced in place, a new key is appended at the end. -/
def dictInsert {α β : Type} [DecidableEq α] : List (α × β) → α → β → List (α × β)
  | [], key, val => [(key, val)]
  | (k, v) :: rest, key, val =>
    if k = key then (key, val) :: rest else (k, v) :: dictInsert rest key val

/-- The keys of a dictionary. -/
def dictKeys {α β : Type} (d : List (α × β)) : List α := d.map Prod.fst

/-- The model of `dict(pairs)`: successive insertion of every pair, so a
later pair overwrites an earlier one with the same key. -/
def dictOfList {α β : Type} [DecidableEq α] (l : List (α × β)) : List (α × β) :=
  l.foldl (fun d p => dictInsert d p.1 p.2) []

/-- Python `min(...)` over a list of integers, `none` when the list is
empty (where Python raises `ValueError`). -/
def listMin : List Int → Option Int
  | [] => none
  | x :: xs =>
    match listMin xs with
    | none => some x
    | some m => some (min x m)

/-- Python `max(...)` over a list of integers, `none` when the list is
empty (where Python raises `ValueError`). -/
def listMax : List Int → Option Int
  | [] => none
  | x :: xs =>
    match listMax xs with
    | none => some x
    | some m => some (max x m)

/-- The `Tape` object: the internal sparse dictionary `_tape` plus the
tracked `_minIndex` and `_maxIndex` bookkeeping fields. -/
structure Tape where
  tape : List (Int × Sym)
  minIndex : Int
  maxIndex : Int
deriving DecidableEq, Repr

/-- The per-cell validation performed in `Tape.__init__`: the stored string
must have length at most one and belong to SYMBOLS (the stored values are
always strings; `len` applied to `None` would itself raise). -/
def cellValid : Sym → Bool
  | Sym.pystr s => decide (s.length ≤ 1) && decide (s ∈ SYMBOLS)
  | Sym.pynone => false

/-- The dictionary built by the sparse branch of `Tape.__init__`: entries
whose value is `None` are dropped, `str` is applied to every kept value,
and the pairs are fed to `dict(...)`. -/
def sparseEntries (tapelist : List (Int × Sym)) : List (Int × Sym) :=
  (tapelist.filter fun p => decide (p.2 ≠ Sym.pynone)).map
    fun p => (p.1, Sym.pystr (pyStr p.2))

/-- The sparse branch of `Tape.__init__`: build the dictionary, validate
every stored cell, then compute `_minIndex` and `_maxIndex` with `min` and
`max` over the keys (which raise `ValueError` on an empty dictionary). -/
def Tape.initSparse (tapelist : List (Int × Sym)) : Except PyErr Tape :=
  if (dictOfList (sparseEntries tapelist)).all (fun p => cellValid p.2) then
    match listMin (dictKeys (dictOfList (sparseEntries tapelist))),
          listMax (dictKeys (dictOfList (sparseEntries tapelist))) with
    | some mn, some mx => Except.ok ⟨dictOfList (sparseEntries tapelist), mn, mx⟩
    | _, _ => Except.error (PyErr.valueError "min() arg is an empty sequence")
  else
    Except.error (PyErr.valueError "Invalid tape description")

/-- `Tape.__getitem__`: `self._tape.get(key, None)`. -/
def Tape.getitem (t : Tape) (key : Int) : Sym :=
  (dictLookup t.tape key).getD Sym.pynone

/-- The dictionary produced by the mutation in `Tape.__setitem__`: writing
the empty string deletes the entry, writing anything else stores it. -/
def writtenDict (t : Tape) (key : Int) (value : Sym) : List (Int × Sym) :=
  if value = Sym.pystr "" then dictRemove t.tape key else dictInsert t.tape key value

/-- `Tape.__setitem__`: perform the write, then recompute `_minIndex` and
`_maxIndex` with `min`/`max` over the keys of the mutated dictionary,
which raises `ValueError` when the dictionary has become empty. -/
def Tape.setitem (t : Tape) (key : Int) (value : Sym) : Except PyErr Tape :=
  match listMin (dictKeys (writtenDict t key value)),
        listMax (dictKeys (writtenDict t key value)) with
  | some mn, some mx => Except.ok ⟨writtenDict t key value, mn, mx⟩
  | _, _ => Except.error (PyErr.valueError "min() arg is an empty sequence")

/-- `Tape.__iter__`: the pairs `(i, self[i])` for `i` in
`range(self._minIndex, self._maxIndex + 1)`. -/
def Tape.iterList (t : Tape) : List (Int × Sym) :=
  (List.range (t.maxIndex + 1 - t.minIndex).toNat).map
    fun k => (t.minIndex + Int.ofNat k, t.getitem (t.minIndex + Int.ofNat k))

/-- The `Move` enumeration. -/
inductive Move where
  | Stay : Move
  | Right : Move
  | Left : Move
deriving DecidableEq, Repr

/-- The `value` attribute of each `Move` member. -/
def Move.value : Move → Int
  | Move.Stay => 0
  | Move.Right => 1
  | Move.Left => -1

/-- A Python value appearing in the move position of a table entry: a
`Move` member, a raw integer, or some other object. -/
inductive MoveSpec where
  | enum (m : Move)
  | int (i : Int)
  | other (s : String)
deriving DecidableEq, Repr

/-- The attribute access `move.value`: defined for `Move` members, an
`AttributeError` (modelled as `none`) for every other value. -/
def MoveSpec.pyValue : MoveSpec → Option Int
  | MoveSpec.enum m => some m.value
  | MoveSpec.int _ => none
  | MoveSpec.other _ => none

/-- The move check in `_validate_table`:
`isinstance(move, Move) or move in (-1, 0, 1)`. -/
def moveOk : MoveSpec → Bool
  | MoveSpec.enum _ => true
  | MoveSpec.int i => decide (i = -1 ∨ i = 0 ∨ i = 1)
  | MoveSpec.other _ => false

/-- An instruction table: a dictionary from `(state, symbol)` to
`(symbol_to_print, move, next_state)`. -/
abbrev Table := List ((Int × Sym) × (Sym × MoveSpec × Int))

/-- The per-entry checks of `_validate_table`, in source order: key symbol,
then output symbol, then move. -/
def entryError (entry : (Int × Sym) × (Sym × MoveSpec × Int)) : Option PyErr :=
  if pyStr entry.1.2 ∉ SYMBOLS ∧ entry.1.2 ≠ Sym.pynone then
    some (PyErr.valueError
      "Symbol must be convertible to an alphanumeric or underscore character, or None")
  else if pyStr entry.2.1 ∉ SYMBOLS then
    some (PyErr.valueError
      "Symbol must be convertible to an alphanumeric or underscore character")
  else if moveOk entry.2.2.1 = false then
    some (PyErr.valueError "Invalid move")
  else
    none

/-- `_validate_table`: iterate over the entries and raise the first
validation error encountered. -/
def validateTable : Table → Option PyErr
  | [] => none
  | entry :: rest =>
    match entryError entry with
    | some e => some e
    | none => validateTable rest

/-- The `TMReport` named tuple: state, head and (a view of) the tape. -/
structure TMReport where
  state : Int
  head : Int
  tape : Tape
deriving DecidableEq, Repr

/-- The `TMActionReport` named tuple. -/
structure TMActionReport where
  cell_written : Option Int
  symbol_written : Option Sym
  move : Option MoveSpec
deriving DecidableEq, Repr

/-- The mutable state of a `TuringMachine` instance. -/
structure TMState where
  tape : Tape
  table : Table
  state : Int
  head : Int
  started : Bool
deriving DecidableEq, Repr

/-- The observable outcome of one `__next__` call: a report pair, a
`StopIteration`, or a propagating Python exception. -/
inductive StepOutcome where
  | report (conf : TMReport) (act : TMActionReport)
  | stopIteration : StepOutcome
  | pyError (e : PyErr)
deriving DecidableEq, Repr

/-- `TuringMachine.__init__`: validate the table first, then construct the
tape, then initialise state 0, head 0 and the not-yet-started flag. -/
def TuringMachine.init (tapelist : List (Int × Sym)) (table : Table) :
    Except PyErr TMState :=
  match validateTable table with
  | some e => Except.error e
  | none =>
    match Tape.initSparse tapelist with
    | Except.error e => Except.error e
    | Except.ok t =>
      Except.ok { tape := t, table := table, state := 0, head := 0, started := false }

/-- `TuringMachine.__next__`, returning the machine as left by the call
together with the outcome. On the first call it only reports the starting
configuration; afterwards it looks up `(state, symbol under head)`, halts
on a missing entry, and otherwise updates the state, writes the output
symbol at the head, displaces the head by `move.value`, and reports the
new configuration together with the action report built from
`self.head - move.value if symbol_to_print else None`,
`symbol_to_print or None` and `move`. -/
def TuringMachine.next (m : TMState) : TMState × StepOutcome :=
  if m.started then
    match dictLookup m.table (m.state, m.tape.getitem m.head) with
    | none => (m, StepOutcome.stopIteration)
    | some (symbol_to_print, move, next_state) =>
      let m1 : TMState := { m with state := next_state }
      match Tape.setitem m1.tape m1.head symbol_to_print with
      | Except.error e => (m1, StepOutcome.pyError e)
      | Except.ok t2 =>
        let m2 : TMState := { m1 with tape := t2 }
        match MoveSpec.pyValue move with
        | none =>
          (m2, StepOutcome.pyError
            (PyErr.attributeError "object has no attribute value"))
        | some d =>
          let m3 : TMState := { m2 with head := m2.head + d }
          (m3, StepOutcome.report
            ⟨m3.state, m3.head, m3.tape⟩
            ⟨if pyTruthy symbol_to_print then some (m3.head - d) else none,
             if pyTruthy symbol_to_print then some symbol_to_print else none,
             some move⟩)
  else
    let m2 : TMState := { m with started := true }
    (m2, StepOutcome.report ⟨m2.state, m2.head, m2.tape⟩ ⟨none, none, none⟩)

/-- The concrete two-cell tape used for the C1 counterexample. -/
def c1Tape : Tape := ⟨[(0, Sym.pystr "a"), (1, Sym.pystr "b")], 0, 1⟩

/-- The concrete started machine used for the C1 counterexample: its only
transition prints the blank (empty string) over the a under the head. -/
def c1Machine : TMState :=
  ⟨c1Tape, [((0, Sym.pystr "a"), (Sym.pystr "", MoveSpec.enum Move.Right, 1))], 0, 0, true⟩

/-- The concrete one-cell tape used for the C2 failing input. -/
def c2Tape : Tape := ⟨[(0, Sym.pystr "0")], 0, 0⟩

/-- The concrete tape used for the C3 counterexample. -/
def c3Tape : Tape := ⟨[(0, Sym.pystr "a")], 0, 0⟩

/-- The tape produced by the sparse description `[(0, blank), (1, a)]`,
used for the C5 counterexample: the entry explicitly paired with the
empty string is stored. -/
def c5Tape : Tape := ⟨[(0, Sym.pystr ""), (1, Sym.pystr "a")], 0, 1⟩

/-- A table whose single entry carries the illegal move value `2`, used
for the C6 witness. -/
def c6Table : Table := [((0, Sym.pystr "a"), (Sym.pystr "b", MoveSpec.int 2, 0))]

/-- A tape whose non-blank content sits at indices -2 and 5, used for the
C8 witness. -/
def c8Tape : Tape := ⟨[(-2, Sym.pystr "a"), (5, Sym.pystr "b")], -2, 5⟩

/-- A table whose single entry carries the raw integer move `1`, which
passes validation, used for C10. -/
def c10Table : Table := [((0, Sym.pystr "a"), (Sym.pystr "b", MoveSpec.int 1, 7))]

/-- Lookup after an insertion: the inserted key maps to the new value,
every other key is unaffected. -/
theorem dictLookup_insert {α β : Type} [DecidableEq α]
    (d : List (α × β)) (k : α) (v : β) (i : α) :
    dictLookup (dictInsert d k v) i = if k = i then some v else dictLookup d i := by
  induction d with
  | nil => simp [dictInsert, dictLookup]
  | cons p rest ih =>
    obtain ⟨a, b⟩ := p
    by_cases hak : a = k
    · subst hak
      simp only [dictInsert, if_pos rfl, dictLookup]
      by_cases hai : a = i <;> simp [dictLookup, hai]
    · simp only [dictInsert, if_neg hak, dictLookup]
      by_cases hai : a = i
      · subst hai
        have hka : k ≠ a := fun h => hak h.symm
        simp [dictLookup, hka]
      · simp [dictLookup, hai, ih]

/-- Removing a key makes its lookup fail. -/
theorem dictLookup_remove_self {α β : Type} [DecidableEq α]
    (d : List (α × β)) (k : α) :
    dictLookup (dictRemove d k) k = none := by
  induction d with
  | nil => simp [dictRemove, dictLookup]
  | cons p rest ih =>
    obtain ⟨a, b⟩ := p
    by_cases hak : a = k
    · simp [dictRemove, hak, ih]
    · simp [dictRemove, dictLookup, hak, ih]

/-- A successful lookup exhibits a member of the association list. -/
theorem dictLookup_mem {α β : Type} [DecidableEq α]
    {d : List (α × β)} {i : α} {v : β}
    (h : dictLookup d i = some v) : (i, v) ∈ d := by
  induction d with
  | nil => simp [dictLookup] at h
  | cons p rest ih =>
    obtain ⟨a, b⟩ := p
    simp only [dictLookup] at h
    split at h
    · rename_i hai
      injection h with h
      subst h
      subst hai
      exact List.mem_cons_self _ _
    · exact List.mem_cons_of_mem _ (ih h)

/-- Lookup over a concatenation prefers the left list. -/
theorem dictLookup_append {α β : Type} [DecidableEq α]
    (d₁ d₂ : List (α × β)) (i : α) :
    dictLookup (d₁ ++ d₂) i =
      match dictLookup d₁ i with
      | some v => some v
      | none => dictLookup d₂ i := by
  induction d₁ with
  | nil => simp [dictLookup]
  | cons p rest ih =>
    obtain ⟨a, b⟩ := p
    by_cases hai : a = i <;> simp [dictLookup, hai, ih]

/-- Lookup through the insertion fold used by `dictOfList`: the last
binding in the pair list wins, with the accumulator as fallback. -/
theorem dictLookup_foldl_insert {α β : Type} [DecidableEq α]
    (l : List (α × β)) (acc : List (α × β)) (i : α) :
    dictLookup (l.foldl (fun d p => dictInsert d p.1 p.2) acc) i =
      match dictLookup l.reverse i with
      | some v => some v
      | none => dictLookup acc i := by
  induction l generalizing acc with
  | nil => simp [dictLookup]
  | cons p rest ih =>
    simp only [List.foldl_cons, List.reverse_cons]
    rw [ih, dictLookup_append]
    cases hr : dictLookup rest.reverse i with
    | some v => simp
    | none =>
      simp only []
      rw [dictLookup_insert]
      by_cases hpi : p.1 = i <;> simp [dictLookup, hpi]

/-- Every binding of `dictOfList l` comes from a pair of `l`. -/
theorem dictOfList_lookup_mem {α β : Type} [DecidableEq α]
    {l : List (α × β)} {i : α} {v : β}
    (h : dictLookup (dictOfList l) i = some v) : (i, v) ∈ l := by
  unfold dictOfList at h
  rw [dictLookup_foldl_insert] at h
  cases hr : dictLookup l.reverse i with
  | none => rw [hr] at h; simp [dictLookup] at h
  | some w =>
    rw [hr] at h
    simp only [Option.some.injEq] at h
    subst h
    exact List.mem_reverse.mp (dictLookup_mem hr)

/-- A key with no pair in `l` has no binding in `dictOfList l`. -/
theorem dictOfList_lookup_none {α β : Type} [DecidableEq α]
    {l : List (α × β)} {i : α}
    (h : ∀ v, (i, v) ∉ l) : dictLookup (dictOfList l) i = none := by
  cases hl : dictLookup (dictOfList l) i with
  | none => rfl
  | some v => exact absurd (dictOfList_lookup_mem hl) (h v)

/-- `min` over a nonempty list of integers succeeds. -/
theorem listMin_cons (x : Int) (xs : List Int) : ∃ m, listMin (x :: xs) = some m := by
  cases h : listMin xs with
  | none => exact ⟨x, by simp [listMin, h]⟩
  | some m => exact ⟨min x m, by simp [listMin, h]⟩

/-- `max` over a nonempty list of integers succeeds. -/
theorem listMax_cons (x : Int) (xs : List Int) : ∃ m, listMax (x :: xs) = some m := by
  cases h : listMax xs with
  | none => exact ⟨x, by simp [listMax, h]⟩
  | some m => exact ⟨max x m, by simp [listMax, h]⟩

/-- `min` over a nonempty list of integers never fails. -/
theorem listMin_ne_none (x : Int) (xs : List Int) : listMin (x :: xs) ≠ none := by
  obtain ⟨m, hm⟩ := listMin_cons x xs
  simp [hm]

/-- The tracked minimum never exceeds the tracked maximum. -/
theorem listMin_le_listMax {l : List Int} {mn mx : Int}
    (hmn : listMin l = some mn) (hmx : listMax l = some mx) : mn ≤ mx := by
  induction l generalizing mn mx with
  | nil => simp [listMin] at hmn
  | cons x xs ih =>
    cases hn : listMin xs with
    | none =>
      have hxs : xs = [] := by
        cases xs with
        | nil => rfl
        | cons y ys => exact absurd hn (listMin_ne_none y ys)
      subst hxs
      simp only [listMin, listMax] at hmn hmx
      injection hmn with hmn
      injection hmx with hmx
      omega
    | some m =>
      have hx : ∃ M, listMax xs = some M := by
        cases xs with
        | nil => simp [listMin] at hn
        | cons y ys => exact listMax_cons y ys
      obtain ⟨M, hM⟩ := hx
      simp only [listMin, hn] at hmn
      simp only [listMax, hM] at hmx
      injection hmn with hmn
      injection hmx with hmx
      have hmM : m ≤ M := ih hn hM
      have h1 : min x m ≤ m := min_le_right _ _
      have h2 : M ≤ max x M := le_max_right _ _
      omega

/-- Inversion of a successful sparse tape construction: the stored
dictionary is exactly `dictOfList (sparseEntries tapelist)` and the
tracked extremes are the true minimum and maximum of its keys. -/
theorem initSparse_ok {tapelist : List (Int × Sym)} {t : Tape}
    (h : Tape.initSparse tapelist = Except.ok t) :
    t.tape = dictOfList (sparseEntries tapelist) ∧
    listMin (dictKeys t.tape) = some t.minIndex ∧
    listMax (dictKeys t.tape) = some t.maxIndex := by
  unfold Tape.initSparse at h
  split at h
  · split at h
    · injection h with h
      subst h
      simp_all
    · cases h
  · cases h

/-- Inversion of a successful tape write: the stored dictionary is the
mutated one and the tracked extremes are recomputed over its keys. -/
theorem setitem_ok {t : Tape} {key : Int} {value : Sym} {t2 : Tape}
    (h : Tape.setitem t key value = Except.ok t2) :
    t2.tape = writtenDict t key value ∧
    listMin (dictKeys t2.tape) = some t2.minIndex ∧
    listMax (dictKeys t2.tape) = some t2.maxIndex := by
  unfold Tape.setitem at h
  split at h
  · injection h with h
    subst h
    simp_all
  · cases h

/-- Claim C9: the first advance of a freshly constructed machine applies no
transition and reports the untouched initial configuration (state 0, head
0, the initial tape) with an action report whose fields are all absent. -/
theorem c9_first_advance (tapelist : List (Int × Sym)) (table : Table) (m : TMState)
    (h : TuringMachine.init tapelist table = Except.ok m) :
    TuringMachine.next m =
      ({ m with started := true },
       StepOutcome.report ⟨0, 0, m.tape⟩ ⟨none, none, none⟩) := by
  unfold TuringMachine.init at h
  split at h
  · cases h
  · split at h
    · cases h
    · injection h with h
      subst h
      rfl

/-- Witness for C9 at a concrete machine built from the tape `[(0, a)]` and
the empty table. -/
theorem c9_first_advance_witness :
    TuringMachine.next ⟨⟨[(0, Sym.pystr "a")], 0, 0⟩, [], 0, 0, false⟩ =
      (⟨⟨[(0, Sym.pystr "a")], 0, 0⟩, [], 0, 0, true⟩,
       StepOutcome.report ⟨0, 0, ⟨[(0, Sym.pystr "a")], 0, 0⟩⟩ ⟨none, none, none⟩) :=
  c9_first_advance [(0, Sym.pystr "a")] []
    ⟨⟨[(0, Sym.pystr "a")], 0, 0⟩, [], 0, 0, false⟩ rfl

/-- Claim C4: once the initial report has been produced, an advance with no
matching transition returns the machine unchanged together with the
StopIteration signal, every further advance does so again, and a machine
built with the empty table stops on the advance right after the initial
report. -/
theorem c4_halting (m : TMState) (h : m.started = true)
    (hl : dictLookup m.table (m.state, m.tape.getitem m.head) = none) :
    TuringMachine.next m = (m, StepOutcome.stopIteration) ∧
    TuringMachine.next ((TuringMachine.next m).1) = (m, StepOutcome.stopIteration) ∧
    (∀ (tapelist : List (Int × Sym)) (m0 : TMState),
      TuringMachine.init tapelist ([] : Table) = Except.ok m0 →
      (TuringMachine.next ((TuringMachine.next m0).1)).2 = StepOutcome.stopIteration) := by
  have h1 : TuringMachine.next m = (m, StepOutcome.stopIteration) := by
    unfold TuringMachine.next
    simp only [h, if_true, hl]
  refine ⟨h1, ?_, ?_⟩
  · rw [h1]
    exact h1
  · intro tapelist m0 h0
    unfold TuringMachine.init at h0
    split at h0
    · cases h0
    · split at h0
      · cases h0
      · injection h0 with h0
        subst h0
        rfl

/-- Witness for C4 at a started machine with an empty table. -/
theorem c4_halting_witness :
    TuringMachine.next ⟨⟨[(0, Sym.pystr "a")], 0, 0⟩, [], 0, 0, true⟩ =
      (⟨⟨[(0, Sym.pystr "a")], 0, 0⟩, [], 0, 0, true⟩, StepOutcome.stopIteration) :=
  (c4_halting ⟨⟨[(0, Sym.pystr "a")], 0, 0⟩, [], 0, 0, true⟩ (by decide) (by decide)).1

/-- In a started machine one advance signals StopIteration exactly when the
table has no entry keyed by the pair (current state, symbol under head). -/
theorem next_stop_iff (m : TMState) (h : m.started = true) :
    (TuringMachine.next m).2 = StepOutcome.stopIteration ↔
      dictLookup m.table (m.state, m.tape.getitem m.head) = none := by
  unfold TuringMachine.next
  simp only [h, if_true]
  cases hl : dictLookup m.table (m.state, m.tape.getitem m.head) with
  | none => simp
  | some v =>
    obtain ⟨sp, mv, ns⟩ := v
    simp only []
    constructor
    · intro hst
      split at hst
      · simp at hst
      · split at hst
        · simp at hst
        · simp at hst
    · intro hfalse
      cases hfalse


/-- Claim C7: during a transition lookup the entry keyed by the no-symbol
sentinel (`None`) matches exactly when the symbol read under the head is
blank, and for a non-blank symbol only the entry keyed by that exact
symbol can match — the wildcard never acts as a fallback. -/
theorem c7_wildcard (m : TMState) (h : m.started = true) :
    (m.tape.getitem m.head = Sym.pynone →
      ((TuringMachine.next m).2 = StepOutcome.stopIteration ↔
        dictLookup m.table (m.state, Sym.pynone) = none)) ∧
    (∀ s : String, m.tape.getitem m.head = Sym.pystr s →
      ((TuringMachine.next m).2 = StepOutcome.stopIteration ↔
        dictLookup m.table (m.state, Sym.pystr s) = none)) := by
  constructor
  · intro hb
    rw [← hb]
    exact next_stop_iff m h
  · intro s hs
    rw [← hs]
    exact next_stop_iff m h

/-- Witness for C7: a started machine reading the non-blank symbol a with
a table holding only the wildcard entry still stops — the wildcard does
not catch a non-blank symbol. -/
theorem c7_wildcard_witness :
    (TuringMachine.next
      ⟨⟨[(0, Sym.pystr "a")], 0, 0⟩,
       [((0, Sym.pynone), (Sym.pystr "b", MoveSpec.enum Move.Stay, 1))],
       0, 0, true⟩).2 = StepOutcome.stopIteration :=
  ((c7_wildcard
    ⟨⟨[(0, Sym.pystr "a")], 0, 0⟩,
     [((0, Sym.pynone), (Sym.pystr "b", MoveSpec.enum Move.Stay, 1))],
     0, 0, true⟩ rfl).2 "a" rfl).mpr rfl

/-- Counterexample to C1 as stated: the machine applies a transition that
writes the blank symbol at head position 0, yet the resulting action
report carries cell_written = none rather than the head position before
the move — the truthiness guard on symbol_to_print also blanks out the
cell index. -/
theorem c1_counterexample :
    Tape.initSparse [(0, Sym.pystr "a"), (1, Sym.pystr "b")] = Except.ok c1Tape ∧
    (TuringMachine.next c1Machine).2 =
      StepOutcome.report ⟨1, 1, ⟨[(1, Sym.pystr "b")], 1, 1⟩⟩
        ⟨none, none, some (MoveSpec.enum Move.Right)⟩ :=
  ⟨rfl, rfl⟩

/-- Claim C1 as amended: for every advance that applies a transition whose
move is a genuine Move member and whose write succeeds, the action report
has cell_written equal to the head position before the move when the
written symbol is non-blank and absent when it is blank, symbol_written
equal to the written symbol exactly when it is non-blank, and move equal
to the Move that was applied. -/
theorem c1_action_report (m : TMState) (sp : Sym) (mv : Move) (ns : Int) (t2 : Tape)
    (h : m.started = true)
    (hl : dictLookup m.table (m.state, m.tape.getitem m.head) =
      some (sp, MoveSpec.enum mv, ns))
    (hw : Tape.setitem m.tape m.head sp = Except.ok t2) :
    (TuringMachine.next m).2 =
      StepOutcome.report ⟨ns, m.head + mv.value, t2⟩
        ⟨if pyTruthy sp then some m.head else none,
         if pyTruthy sp then some sp else none,
         some (MoveSpec.enum mv)⟩ := by
  unfold TuringMachine.next
  simp only [h, if_true, hl, hw, MoveSpec.pyValue]
  have hc : m.head + mv.value - mv.value = m.head := by omega
  rw [hc]

/-- Witness for C1 as amended: a transition that prints the non-blank b
reports the written cell, the written symbol and the move. -/
theorem c1_action_report_witness :
    (TuringMachine.next
      ⟨⟨[(0, Sym.pystr "a")], 0, 0⟩,
       [((0, Sym.pystr "a"), (Sym.pystr "b", MoveSpec.enum Move.Right, 1))],
       0, 0, true⟩).2 =
      StepOutcome.report ⟨1, 0 + Move.value Move.Right, ⟨[(0, Sym.pystr "b")], 0, 0⟩⟩
        ⟨some 0, some (Sym.pystr "b"), some (MoveSpec.enum Move.Right)⟩ := by
  have h := c1_action_report
    ⟨⟨[(0, Sym.pystr "a")], 0, 0⟩,
     [((0, Sym.pystr "a"), (Sym.pystr "b", MoveSpec.enum Move.Right, 1))],
     0, 0, true⟩
    (Sym.pystr "b") Move.Right 1 ⟨[(0, Sym.pystr "b")], 0, 0⟩ rfl rfl rfl
  simpa using h

/-- Insertion never empties a dictionary. -/
theorem dictInsert_ne_nil {α β : Type} [DecidableEq α]
    (d : List (α × β)) (k : α) (v : β) : dictInsert d k v ≠ [] := by
  cases d with
  | nil => simp [dictInsert]
  | cons p rest =>
    obtain ⟨a, b⟩ := p
    by_cases h : a = k <;> simp [dictInsert, h]

/-- A write whose mutated dictionary is nonempty succeeds and stores
exactly that dictionary. -/
theorem setitem_ok_of_ne_nil (t : Tape) (key : Int) (value : Sym)
    (h : writtenDict t key value ≠ []) :
    ∃ mn mx, Tape.setitem t key value = Except.ok ⟨writtenDict t key value, mn, mx⟩ := by
  cases hd : writtenDict t key value with
  | nil => exact absurd hd h
  | cons p rest =>
    obtain ⟨mn, hmn⟩ := listMin_cons p.1 (dictKeys rest)
    obtain ⟨mx, hmx⟩ := listMax_cons p.1 (dictKeys rest)
    refine ⟨mn, mx, ?_⟩
    unfold Tape.setitem
    rw [hd]
    simp only [dictKeys, List.map_cons] at hmn hmx
    simp only [dictKeys, List.map_cons, hmn, hmx]

/-- Counterexample to C3 as stated: the exclamation mark is outside the
configured alphabet and is not blank, yet writing it to a tape cell
succeeds and stores it — `Tape.__setitem__` performs no symbol validation
at all. -/
theorem c3_counterexample :
    Tape.initSparse [(0, Sym.pystr "a")] = Except.ok c3Tape ∧
    "!" ∉ SYMBOLS ∧
    ("!" : String) ≠ "" ∧
    Tape.setitem c3Tape 1 (Sym.pystr "!") =
      Except.ok ⟨[(0, Sym.pystr "a"), (1, Sym.pystr "!")], 0, 1⟩ :=
  ⟨rfl, by decide, by decide, rfl⟩

/-- Claim C3 as amended: writes are never validated. Writing any non-blank
value at any integer index succeeds (whether or not the value is in the
alphabet) and stores it; writing blank removes the entry and succeeds
exactly when the internal mapping stays nonempty, raising the min-of-empty
ValueError otherwise. No InvalidSymbol failure exists at write time. -/
theorem c3_write_no_validation (t : Tape) (key : Int) (value : Sym) :
    (value ≠ Sym.pystr "" →
      ∃ t2, Tape.setitem t key value = Except.ok t2 ∧
        dictLookup t2.tape key = some value) ∧
    (value = Sym.pystr "" →
      (dictRemove t.tape key = [] →
        Tape.setitem t key value =
          Except.error (PyErr.valueError "min() arg is an empty sequence")) ∧
      (dictRemove t.tape key ≠ [] →
        ∃ t2, Tape.setitem t key value = Except.ok t2 ∧
          dictLookup t2.tape key = none)) := by
  constructor
  · intro hv
    have hwd : writtenDict t key value = dictInsert t.tape key value := by
      unfold writtenDict
      rw [if_neg hv]
    obtain ⟨mn, mx, hok⟩ := setitem_ok_of_ne_nil t key value
      (by rw [hwd]; exact dictInsert_ne_nil _ _ _)
    refine ⟨⟨writtenDict t key value, mn, mx⟩, hok, ?_⟩
    rw [hwd]
    simp [dictLookup_insert]
  · intro hv
    subst hv
    have hwd : writtenDict t key (Sym.pystr "") = dictRemove t.tape key := by
      unfold writtenDict
      rw [if_pos rfl]
    constructor
    · intro hnil
      unfold Tape.setitem
      rw [hwd, hnil]
      rfl
    · intro hnnil
      obtain ⟨mn, mx, hok⟩ := setitem_ok_of_ne_nil t key (Sym.pystr "")
        (by rw [hwd]; exact hnnil)
      refine ⟨⟨writtenDict t key (Sym.pystr ""), mn, mx⟩, hok, ?_⟩
      rw [hwd]
      exact dictLookup_remove_self _ _

/-- Witness for C3 as amended: writing the out-of-alphabet value `?` at
index 5 of a one-cell tape succeeds and stores it. -/
theorem c3_write_no_validation_witness :
    ∃ t2, Tape.setitem c3Tape 5 (Sym.pystr "?") = Except.ok t2 ∧
      dictLookup t2.tape 5 = some (Sym.pystr "?") :=
  (c3_write_no_validation c3Tape 5 (Sym.pystr "?")).1 (by decide)

/-- Claim C2 (failing input of the code bug): on a tape whose only
non-blank cell is at index 0, writing blank at index 0 does not succeed —
after the deletion the internal mapping is empty and the recomputation of
the tracked extremes raises a ValueError from `min()`, exactly the
edge case the specification requires implementations to handle. -/
theorem c2_erase_last_cell_raises :
    Tape.initSparse [(0, Sym.pystr "0")] = Except.ok c2Tape ∧
    Tape.setitem c2Tape 0 (Sym.pystr "") =
      Except.error (PyErr.valueError "min() arg is an empty sequence") :=
  ⟨rfl, rfl⟩

/-- Counterexample to C5 as stated: a sparse description that explicitly
pairs index 0 with the empty-string blank produces an internal mapping
whose entry at 0 holds the blank value — construction only drops entries
paired with `None`, not entries paired with the empty string. -/
theorem c5_counterexample :
    Tape.initSparse [(0, Sym.pystr ""), (1, Sym.pystr "a")] = Except.ok c5Tape ∧
    dictLookup c5Tape.tape 0 = some (Sym.pystr "") :=
  ⟨rfl, rfl⟩

/-- Claim C5 as amended: construction drops exactly the sparse entries
paired with `None` (so no stored entry holds `None`, and an index all of
whose entries are `None` is absent), while entries explicitly paired with
the empty string are stored; and every successful write of blank (the
empty string) removes the stored entry at that index. -/
theorem c5_blank_invariant :
    (∀ (l : List (Int × Sym)) (t : Tape), Tape.initSparse l = Except.ok t →
      (∀ (i : Int) (v : Sym), dictLookup t.tape i = some v →
        v ≠ Sym.pynone ∧ ∃ p ∈ l, p.1 = i ∧ p.2 ≠ Sym.pynone ∧ v = Sym.pystr (pyStr p.2)) ∧
      (∀ i : Int, (∀ p ∈ l, p.1 = i → p.2 = Sym.pynone) →
        dictLookup t.tape i = none)) ∧
    (∀ (t : Tape) (k : Int) (t2 : Tape),
      Tape.setitem t k (Sym.pystr "") = Except.ok t2 →
      dictLookup t2.tape k = none) := by
  constructor
  · intro l t ht
    obtain ⟨htape, -, -⟩ := initSparse_ok ht
    constructor
    · intro i v hv
      rw [htape] at hv
      have hm := dictOfList_lookup_mem hv
      simp only [sparseEntries, List.mem_map, List.mem_filter] at hm
      obtain ⟨p, ⟨hpl, hpne⟩, heq⟩ := hm
      have hpne2 : p.2 ≠ Sym.pynone := by simpa using hpne
      obtain ⟨h1, h2⟩ := Prod.mk.injEq _ _ _ _ ▸ heq
      constructor
      · rw [← h2]
        intro hcontra
        cases hcontra
      · exact ⟨p, hpl, h1, hpne2, h2.symm⟩
    · intro i hall
      rw [htape]
      apply dictOfList_lookup_none
      intro v hv
      simp only [sparseEntries, List.mem_map, List.mem_filter] at hv
      obtain ⟨p, ⟨hpl, hpne⟩, heq⟩ := hv
      have hpne2 : p.2 ≠ Sym.pynone := by simpa using hpne
      obtain ⟨h1, -⟩ := Prod.mk.injEq _ _ _ _ ▸ heq
      exact hpne2 (hall p hpl h1)
  · intro t k t2 h2
    obtain ⟨htape, -, -⟩ := setitem_ok h2
    rw [htape]
    unfold writtenDict
    rw [if_pos rfl]
    exact dictLookup_remove_self _ _

/-- Witness for C5 as amended: erasing cell 0 of a two-cell tape leaves no
stored entry at index 0. -/
theorem c5_blank_invariant_witness :
    dictLookup ((⟨[(1, Sym.pystr "b")], 1, 1⟩ : Tape)).tape 0 = none :=
  c5_blank_invariant.2 ⟨[(0, Sym.pystr "a"), (1, Sym.pystr "b")], 0, 1⟩ 0
    ⟨[(1, Sym.pystr "b")], 1, 1⟩ rfl

/-- A table entry with an illegal move value never passes the per-entry
validation. -/
theorem entryError_some_of_bad_move (entry : (Int × Sym) × (Sym × MoveSpec × Int))
    (h : moveOk entry.2.2.1 = false) : entryError entry ≠ none := by
  unfold entryError
  repeat' split
  all_goals simp_all

/-- A table containing an invalid entry fails validation with some
error. -/
theorem validateTable_some_of_mem {table : Table}
    {entry : (Int × Sym) × (Sym × MoveSpec × Int)}
    (hmem : entry ∈ table) (h : entryError entry ≠ none) :
    ∃ e, validateTable table = some e := by
  induction table with
  | nil => cases hmem
  | cons e0 rest ih =>
    unfold validateTable
    cases he : entryError e0 with
    | some err => exact ⟨err, rfl⟩
    | none =>
      rcases List.mem_cons.mp hmem with h0 | h0
      · subst h0
        exact absurd he h
      · exact ih h0

/-- The per-entry validation only ever produces the three table-validation
ValueErrors. -/
theorem entryError_messages {entry : (Int × Sym) × (Sym × MoveSpec × Int)}
    {e : PyErr} (h : entryError entry = some e) :
    e = PyErr.valueError
        "Symbol must be convertible to an alphanumeric or underscore character, or None" ∨
    e = PyErr.valueError
        "Symbol must be convertible to an alphanumeric or underscore character" ∨
    e = PyErr.valueError "Invalid move" := by
  unfold entryError at h
  split at h
  · injection h with h
    exact Or.inl h.symm
  · split at h
    · injection h with h
      exact Or.inr (Or.inl h.symm)
    · split at h
      · injection h with h
        exact Or.inr (Or.inr h.symm)
      · cases h

/-- Table validation only ever produces the three table-validation
ValueErrors. -/
theorem validateTable_messages {table : Table} {e : PyErr}
    (h : validateTable table = some e) :
    e = PyErr.valueError
        "Symbol must be convertible to an alphanumeric or underscore character, or None" ∨
    e = PyErr.valueError
        "Symbol must be convertible to an alphanumeric or underscore character" ∨
    e = PyErr.valueError "Invalid move" := by
  induction table with
  | nil => cases h
  | cons e0 rest ih =>
    unfold validateTable at h
    cases he : entryError e0 with
    | some err =>
      rw [he] at h
      injection h with h
      exact h ▸ entryError_messages he
    | none =>
      rw [he] at h
      exact ih h

/-- Claim C6: a table containing an entry whose move is neither a Move
member nor one of the integers -1, 0, 1 makes machine construction fail
with one of the table-validation errors, and it does so for every tape
description whatsoever — the tape is never constructed. -/
theorem c6_invalid_move (table : Table) (key : Int × Sym) (sp : Sym)
    (mv : MoveSpec) (ns : Int)
    (hmem : (key, (sp, mv, ns)) ∈ table) (hbad : moveOk mv = false) :
    ∃ e, validateTable table = some e ∧
      (e = PyErr.valueError
          "Symbol must be convertible to an alphanumeric or underscore character, or None" ∨
       e = PyErr.valueError
          "Symbol must be convertible to an alphanumeric or underscore character" ∨
       e = PyErr.valueError "Invalid move") ∧
      ∀ tapelist : List (Int × Sym),
        TuringMachine.init tapelist table = Except.error e := by
  obtain ⟨e, he⟩ :=
    validateTable_some_of_mem hmem (entryError_some_of_bad_move _ hbad)
  refine ⟨e, he, validateTable_messages he, ?_⟩
  intro tapelist
  unfold TuringMachine.init
  rw [he]

/-- Witness for C6 at the concrete table whose entry moves by the raw
integer 2, applied to an empty tape description (itself invalid — the
construction still reports the table error, showing the tape was never
built). -/
theorem c6_invalid_move_witness :
    ∃ e, validateTable c6Table = some e ∧
      (e = PyErr.valueError
          "Symbol must be convertible to an alphanumeric or underscore character, or None" ∨
       e = PyErr.valueError
          "Symbol must be convertible to an alphanumeric or underscore character" ∨
       e = PyErr.valueError "Invalid move") ∧
      ∀ tapelist : List (Int × Sym),
        TuringMachine.init tapelist c6Table = Except.error e :=
  c6_invalid_move c6Table (0, Sym.pystr "a") (Sym.pystr "b") (MoveSpec.int 2) 0
    (List.mem_singleton.mpr rfl) (by decide)

/-- Claim C8: iterating a tape with at least one stored cell and correctly
tracked extremes yields at least one pair and exactly one pair per index
from the tracked minimum to the tracked maximum inclusive, in increasing
index order, reporting blank for every index with no stored entry; a tape
whose content sits exactly at indices -2 and 5 yields exactly 8 pairs. -/
theorem c8_iteration (t : Tape)
    (h1 : t.tape ≠ [])
    (h2 : listMin (dictKeys t.tape) = some t.minIndex)
    (h3 : listMax (dictKeys t.tape) = some t.maxIndex) :
    1 ≤ t.iterList.length ∧
    t.iterList.length = (t.maxIndex + 1 - t.minIndex).toNat ∧
    (∀ (k : Nat) (hk : k < t.iterList.length),
      t.iterList.get ⟨k, hk⟩ =
        (t.minIndex + (k : Int), t.getitem (t.minIndex + (k : Int)))) ∧
    (∀ i : Int, (∀ v, (i, v) ∉ t.tape) → t.getitem i = Sym.pynone) ∧
    (∀ t8 : Tape,
      Tape.initSparse [(-2, Sym.pystr "a"), (5, Sym.pystr "b")] = Except.ok t8 →
      t8.iterList.length = 8) := by
  have hmm : t.minIndex ≤ t.maxIndex := listMin_le_listMax h2 h3
  have hlen : t.iterList.length = (t.maxIndex + 1 - t.minIndex).toNat := by
    unfold Tape.iterList
    rw [List.length_map, List.length_range]
  refine ⟨?_, hlen, ?_, ?_, ?_⟩
  · rw [hlen]
    omega
  · intro k hk
    unfold Tape.iterList
    simp only [List.get_eq_getElem, List.getElem_map, List.getElem_range,
      Int.ofNat_eq_coe]
  · intro i hi
    have hnone : dictLookup t.tape i = none := by
      cases hlk : dictLookup t.tape i with
      | none => rfl
      | some v => exact absurd (dictLookup_mem hlk) (hi v)
    unfold Tape.getitem
    rw [hnone]
    rfl
  · intro t8 h8
    have heq : Tape.initSparse [(-2, Sym.pystr "a"), (5, Sym.pystr "b")] =
        Except.ok (⟨[(-2, Sym.pystr "a"), (5, Sym.pystr "b")], -2, 5⟩ : Tape) := rfl
    rw [heq] at h8
    injection h8 with h8
    rw [← h8]
    rfl

/-- Witness for C8 at the concrete tape with content at indices -2 and
5. -/
theorem c8_iteration_witness : c8Tape.iterList.length = 8 :=
  (c8_iteration c8Tape (by decide) rfl rfl).2.2.2.2 c8Tape rfl

/-- Claim C10: the validator accepts raw integer moves in {-1, 0, 1} (the
concrete table with raw move 1 validates), yet every advance that applies
such an entry fails with an AttributeError at the head-displacement stage:
the state and the tape have already been updated, the head has not moved,
and no report is produced — the step function is not total over the
tables the validator accepts. -/
theorem c10_raw_int_move :
    validateTable c10Table = none ∧
    (∀ i : Int, (i = -1 ∨ i = 0 ∨ i = 1) → moveOk (MoveSpec.int i) = true) ∧
    (∀ (m : TMState) (sp : Sym) (i ns : Int) (t2 : Tape),
      m.started = true →
      dictLookup m.table (m.state, m.tape.getitem m.head) =
        some (sp, MoveSpec.int i, ns) →
      Tape.setitem m.tape m.head sp = Except.ok t2 →
      TuringMachine.next m =
        ({ m with state := ns, tape := t2 },
         StepOutcome.pyError (PyErr.attributeError "object has no attribute value"))) := by
  refine ⟨rfl, ?_, ?_⟩
  · intro i hi
    rcases hi with h | h | h <;> subst h <;> rfl
  · intro m sp i ns t2 h hl hw
    unfold TuringMachine.next
    simp only [h, if_true, hl, hw, MoveSpec.pyValue]

/-- Witness for C10 at a concrete started machine whose table entry moves
by the raw integer 1. -/
theorem c10_raw_int_move_witness :
    TuringMachine.next
      ⟨⟨[(0, Sym.pystr "a"), (1, Sym.pystr "b")], 0, 1⟩, c10Table, 0, 0, true⟩ =
      (⟨⟨[(0, Sym.pystr "b"), (1, Sym.pystr "b")], 0, 1⟩, c10Table, 7, 0, true⟩,
       StepOutcome.pyError (PyErr.attributeError "object has no attribute value")) := by
  have h := c10_raw_int_move.2.2
    ⟨⟨[(0, Sym.pystr "a"), (1, Sym.pystr "b")], 0, 1⟩, c10Table, 0, 0, true⟩
    (Sym.pystr "b") 1 7 ⟨[(0, Sym.pystr "b"), (1, Sym.pystr "b")], 0, 1⟩ rfl rfl rfl
  exact h

end TMSim
